import Mathlib

/-!
Verification of the Book-Recomendation pipeline specification against the code.

The development shallowly embeds the pure cores of the repository:

* `app_src/data/build_features.py` — `BuildFeatures.clean_text`, the combined-text
  construction and the min-max feature scaling of `build_book_features` /
  `build_paper_features`;
* `app_src/models/model2/model.py` — `RecommendationModel.train` and
  `RecommendationModel.recommend` (the embedding-based ranker);
* `src/models/model1/model.py` — `RecommendationModel.initiate_recomendation_model`
  (the TF-IDF trainer with its skip-if-exists artifact gate and the final-score
  aggregation);
* `src/models/model1/predict.py` — `SimplePredictor._ensure_artifacts`,
  `_load_metadata`, `_top_k_from_sims` and `predict`.

Numeric columns are embedded as exact rationals (`ℚ`); missing values (`NaN` in
pandas) are embedded as `Option`; text is embedded as `List Char`, with the
Python regex classes `\w` and `\s` modelled by their ASCII subsets (the data the
pipeline handles is ASCII; Python's unicode-aware classes agree with this model
on ASCII text).  File-system effects are embedded by explicit presence flags and
`Except`; exceptions raised by the Python code become `Except.error` values.
-/

/-! ## Characters: the ASCII fragments of the Python regex classes -/

/-- ASCII fragment of Python's regex class `\s`
(space, tab, newline, carriage return, vertical tab, form feed). -/
def isPySpaceChar (c : Char) : Bool :=
  c.toNat = 32 || c.toNat = 9 || c.toNat = 10 || c.toNat = 13 || c.toNat = 11 || c.toNat = 12

/-- ASCII fragment of Python's regex class `\w` (letters, digits, underscore). -/
def isPyWordChar (c : Char) : Bool :=
  (97 ≤ c.toNat && c.toNat ≤ 122) || (65 ≤ c.toNat && c.toNat ≤ 90) ||
    (48 ≤ c.toNat && c.toNat ≤ 57) || c.toNat = 95

/-- ASCII uppercase letter test. -/
def isUpperChar (c : Char) : Bool :=
  65 ≤ c.toNat && c.toNat ≤ 90

/-! ## `BuildFeatures.clean_text` (app_src/data/build_features.py, lines 57-87) -/

/-- A pandas cell as seen by `clean_text`: a missing value (`None` / float `NaN`,
for which `pd.isna` is true), a string, or a non-string (integer) value. -/
inductive PyVal where
  | nan : PyVal
  | str : List Char → PyVal
  | intVal : Int → PyVal

/-- Python `str(x)` for the embedded cell values
(`str(float("nan")) = "nan"` never arises inside `clean_text` because
`pd.isna` is checked first, but it is the value `astype(str)` produces). -/
def pyStrOf : PyVal → List Char
  | PyVal.nan => ['n', 'a', 'n']
  | PyVal.str s => s
  | PyVal.intVal n => (toString n).data

/-- `str.lower()` per character: `Char.toLower` is exactly Python's ASCII lowering. -/
def pyLowerStr (l : List Char) : List Char :=
  l.map Char.toLower

/-- `re.sub(r"[^\w\s]", "", text)`: keep only word characters and whitespace. -/
def removeNonWord (l : List Char) : List Char :=
  l.filter (fun c => isPyWordChar c || isPySpaceChar c)

/-- Worker for `re.sub(r"\s+", " ", text)`: the flag records whether the previous
character belonged to a whitespace run already replaced by a single `' '`. -/
def collapseAux : Bool → List Char → List Char
  | _, [] => []
  | inWs, c :: cs =>
    if isPySpaceChar c then
      if inWs then collapseAux true cs
      else ' ' :: collapseAux true cs
    else c :: collapseAux false cs

/-- `re.sub(r"\s+", " ", text)`: each maximal whitespace run becomes one space. -/
def collapseWs (l : List Char) : List Char :=
  collapseAux false l

/-- Left half of Python `str.strip()`: drop leading whitespace. -/
def lstripSpaces (l : List Char) : List Char :=
  l.dropWhile isPySpaceChar

/-- Right half of Python `str.strip()`: drop trailing whitespace. -/
def rstripSpaces : List Char → List Char
  | [] => []
  | c :: cs =>
    if rstripSpaces cs = [] ∧ isPySpaceChar c = true then [] else c :: rstripSpaces cs

/-- Python `str.strip()`: drop leading and trailing whitespace. -/
def pyStripChars (l : List Char) : List Char :=
  rstripSpaces (lstripSpaces l)

/-- `BuildFeatures.clean_text` (build_features.py lines 57-87): `pd.isna` input
yields `""`; otherwise lowercase `str(text)`, delete characters outside `\w`/`\s`,
collapse whitespace runs to single spaces, and strip.  The function's own
`except` branch returns `""`, so the embedding is a total function. -/
def cleanText : PyVal → List Char
  | PyVal.nan => []
  | v => pyStripChars (collapseWs (removeNonWord (pyLowerStr (pyStrOf v))))

/-- Concatenation `colA + " " + colB + " " + colC + " " + colD` of four
`astype(str)` columns, as in build_features.py lines 156-164 and 229-237. -/
def combined4 (a b c d : PyVal) : List Char :=
  pyStrOf a ++ ' ' :: (pyStrOf b ++ ' ' :: (pyStrOf c ++ ' ' :: pyStrOf d))

/-- `combined_text` of a book row: title, description, categories, authors
concatenated then cleaned (build_features.py lines 156-167). -/
def bookCombinedText (title description categories authors : PyVal) : List Char :=
  cleanText (PyVal.str (combined4 title description categories authors))

/-- `combined_text` of a paper row: SearchQuery, Title, Abstract, Authors
concatenated then cleaned (build_features.py lines 229-239). -/
def paperCombinedText (searchQuery titleP abstract authorsP : PyVal) : List Char :=
  cleanText (PyVal.str (combined4 searchQuery titleP abstract authorsP))

/-! ## Characterization of cleaned text -/

/-- A character that can occur in a cleaned string: a non-uppercase word
character, or the single space used as whitespace separator. -/
def cleanChar (c : Char) : Bool :=
  (isPyWordChar c && !isUpperChar c) || c = ' '

/-- No two adjacent whitespace characters. -/
def noTwoSpaces (l : List Char) : Prop :=
  l.Chain' (fun a b => isPySpaceChar a = false ∨ isPySpaceChar b = false)

/-- The first character, if any, is not whitespace. -/
def headNotSpace : List Char → Bool
  | [] => true
  | c :: _ => !isPySpaceChar c

/-- The last character, if any, is not whitespace. -/
def lastNotSpace : List Char → Bool
  | [] => true
  | [c] => !isPySpaceChar c
  | _ :: c :: cs => lastNotSpace (c :: cs)

/-- Full well-formedness of a cleaned string: clean characters only, isolated
single spaces, and no leading or trailing whitespace. -/
def IsCleanStr (l : List Char) : Prop :=
  (∀ c ∈ l, cleanChar c = true) ∧ noTwoSpaces l ∧
    headNotSpace l = true ∧ lastNotSpace l = true

/-! ## Min-max feature scaling (build_features.py lines 117-149 and 202-223)

`MinMaxScaler.fit_transform` on one column: `(x - min) / (max - min)`, with a
zero range replaced by 1 (sklearn's `_handle_zeros_in_scale`), so a constant
column scales to all zeros. -/

/-- One value scaled by the column minimum `m` and maximum `M`. -/
def scaleVal (m M y : ℚ) : ℚ :=
  (y - m) / (if M = m then 1 else M - m)

/-- `MinMaxScaler().fit_transform(col)` for a single column. -/
def minmaxScale : List ℚ → List ℚ
  | [] => []
  | x :: xs => (x :: xs).map (scaleVal (xs.foldl min x) (xs.foldl max x))

/-- `col.fillna(0)`: missing values become 0 before scaling. -/
def fillMissingWithZero (col : List (Option ℚ)) : List ℚ :=
  col.map (fun o => o.getD 0)

/-- The `rating_score` / `page_score` / `citations_score` computation:
`MinMaxScaler().fit_transform(col.fillna(0))` (build_features.py lines 129-144
and 214-221) — missing raw values are replaced by 0 and then take part in the
min/max fit together with all other rows. -/
def fillna0Scores (col : List (Option ℚ)) : List ℚ :=
  minmaxScale (fillMissingWithZero col)

/-- Writing the scaled values back into the rows that had a valid raw value
(`df.loc[notna, score] = scaler.fit_transform(valid)`), with the remaining rows
receiving 0 (the later `fillna(0)` over the score columns). -/
def placeBackScores : List (Option ℚ) → List ℚ → List ℚ
  | [], _ => []
  | Option.none :: rest, ss => 0 :: placeBackScores rest ss
  | some _ :: rest, [] => 0 :: placeBackScores rest []
  | some _ :: rest, s :: ss => s :: placeBackScores rest ss

/-- The `recency_score` computation (build_features.py lines 120-126 and
206-212): if any row has a valid year, scale the valid years only and place
them back (invalid rows become 0 via the trailing `fillna(0)`); otherwise the
whole column is 0. -/
def recencyScores (col : List (Option ℚ)) : List ℚ :=
  if col.any (fun o => o.isSome) = true then
    placeBackScores col (minmaxScale (col.filterMap id))
  else col.map (fun _ => 0)

/-- Follows the spec's words for claim C3 (refinement comparison): the min and
max of a normalized signal column are computed only over rows with a valid raw
value; rows lacking the raw value receive score 0 and do not participate. -/
def specValidOnlyScores (col : List (Option ℚ)) : List ℚ :=
  placeBackScores col (minmaxScale (col.filterMap id))

/-! ## Descending sort

`df.sort_values(col, ascending=False)` (model2/model.py lines 164-165) and
`np.argsort(-sims)` (model1/predict.py line 83) both use the library default
`kind='quicksort'` (numpy introsort), which numpy and pandas document as NOT
stable: the relative order of rows with equal keys is implementation-defined.
The embedding therefore fixes one concrete correct descending sort (insertion
sort) as representative and the claim theorems use only the properties every
correct descending sort shares — the output is ordered by descending key and
is a permutation of the input.  Tie order is exercised nowhere except in the
concrete evaluations over one- and two-element lists elsewhere in this file,
where numpy's introsort is literally insertion sort and the embedding is
exact. -/

/-- One concrete descending sort by a rational key; of its output, only the
descending key order and the permutation property are used in claim theorems
(see the section comment). -/
def sortDescBy {α : Type} (key : α → ℚ) (l : List α) : List α :=
  List.insertionSort (fun a b => key b ≤ key a) l

/-! ## Data model of the ranking stage

Rows of the two feature tables, carrying the identity columns that the rankers
project into their result dictionaries and the precomputed normalized scores.
Cell values (strings, numbers, missing) are kept abstract in a small sum type:
the ranking logic never inspects them. -/

/-- A value of an identity column in a feature table. -/
inductive Cell where
  | str : List Char → Cell
  | num : ℚ → Cell
  | null : Cell
deriving DecidableEq, Inhabited

/-- A row of the books feature table as consumed by model2's `recommend`. -/
structure BookF where
  title : Cell
  authors : Cell
  description : Cell
  publisher : Cell
  publishedDate : Cell
  avgrating : Cell
  previewLink : Cell
  ratingScore : ℚ
  recencyScore : ℚ
  pageScore : ℚ
deriving DecidableEq, Inhabited

/-- A row of the papers feature table as consumed by model2's `recommend`. -/
structure PaperF where
  title : Cell
  authors : Cell
  year : Cell
  citations : Cell
  url : Cell
  citationsScore : ℚ
  recencyScore : ℚ
deriving DecidableEq, Inhabited

/-- A book row with its query-time `sim_score` and `final_score` columns. -/
structure ScoredBook where
  book : BookF
  simScore : ℚ
  finalScore : ℚ
deriving DecidableEq

/-- A paper row with its query-time `sim_score` and `final_score` columns. -/
structure ScoredPaper where
  paper : PaperF
  simScore : ℚ
  finalScore : ℚ
deriving DecidableEq

/-- The book `final_score` assignment
`0.55*sim + 0.25*rating + 0.15*recency + 0.05*page`, identical in
model2/model.py lines 146-151 and model1/model.py lines 138-143. -/
def scoreBook (b : BookF) (s : ℚ) : ScoredBook :=
  ⟨b, s, 0.55 * s + 0.25 * b.ratingScore + 0.15 * b.recencyScore + 0.05 * b.pageScore⟩

/-- The paper `final_score` assignment `0.60*sim + 0.30*citations + 0.10*recency`,
identical in model2/model.py lines 156-160 and model1/model.py lines 146-150. -/
def scorePaper (p : PaperF) (s : ℚ) : ScoredPaper :=
  ⟨p, s, 0.60 * s + 0.30 * p.citationsScore + 0.10 * p.recencyScore⟩

/-! ## model2 `RecommendationModel.recommend` (app_src/models/model2/model.py) -/

/-- The books dataframe after the `sim_score` / `final_score` column
assignments, rows tagged with their dataframe index. -/
def model2ScoredBooks (books : List BookF) (sims : List ℚ) : List (ℕ × ScoredBook) :=
  ((books.zip sims).map (fun bs => scoreBook bs.1 bs.2)).enum

/-- The papers dataframe after the `sim_score` / `final_score` column
assignments, rows tagged with their dataframe index. -/
def model2ScoredPapers (papers : List PaperF) (sims : List ℚ) : List (ℕ × ScoredPaper) :=
  ((papers.zip sims).map (fun ps => scorePaper ps.1 ps.2)).enum

/-- `df_books.sort_values("final_score", ascending=False)` (model.py line 164). -/
def model2RankBooks (books : List BookF) (sims : List ℚ) : List (ℕ × ScoredBook) :=
  sortDescBy (fun p => p.2.finalScore) (model2ScoredBooks books sims)

/-- `df_paper.sort_values("final_score", ascending=False)` (model.py line 165). -/
def model2RankPapers (papers : List PaperF) (sims : List ℚ) : List (ℕ × ScoredPaper) :=
  sortDescBy (fun p => p.2.finalScore) (model2ScoredPapers papers sims)

/-- The book record projected into the result dictionary (model.py line 172):
the seven listed columns, and only those. -/
def model2BookItem (b : ScoredBook) : List (String × Cell) :=
  [("title", b.book.title), ("authors", b.book.authors),
   ("description", b.book.description), ("publisher", b.book.publisher),
   ("publishedDate", b.book.publishedDate), ("avgrating", b.book.avgrating),
   ("previewLink", b.book.previewLink)]

/-- The paper record projected into the result dictionary (model.py line 173):
the five listed columns, and only those. -/
def model2PaperItem (p : ScoredPaper) : List (String × Cell) :=
  [("Title", p.paper.title), ("Authors", p.paper.authors),
   ("Year", p.paper.year), ("Citations", p.paper.citations),
   ("URL", p.paper.url)]

/-- Failures of model2's `recommend`: `np.load` raising when a matrix file is
absent, or pandas rejecting a column assignment whose length differs from the
dataframe's row count. -/
inductive M2Error where
  | bookMatrixMissing : M2Error
  | paperMatrixMissing : M2Error
  | bookSimLengthMismatch : M2Error
  | paperSimLengthMismatch : M2Error
deriving DecidableEq

/-- The result dictionary of model2's `recommend`. -/
structure M2Result where
  query : List Char
  topBooks : List (List (String × Cell))
  topPapers : List (List (String × Cell))
deriving DecidableEq

/-- model2 `RecommendationModel.recommend` (model.py lines 89-182).  The loaded
matrices enter as the row-aligned cosine-similarity vectors they induce for the
query (`Option.none` = matrix file absent, so `np.load` raises).  Assigning a
sim column whose length differs from the dataframe raises in pandas before any
sorting happens; otherwise both categories are scored, sorted descending by
`final_score`, truncated, and projected. -/
def model2Recommend (query : List Char) (nBooks nPapers : ℕ)
    (books : List BookF) (papers : List PaperF)
    (bookSims? paperSims? : Option (List ℚ)) : Except M2Error M2Result :=
  match bookSims? with
  | Option.none => Except.error M2Error.bookMatrixMissing
  | some bookSims =>
    match paperSims? with
    | Option.none => Except.error M2Error.paperMatrixMissing
    | some paperSims =>
      if books.length ≠ bookSims.length then
        Except.error M2Error.bookSimLengthMismatch
      else if papers.length ≠ paperSims.length then
        Except.error M2Error.paperSimLengthMismatch
      else
        Except.ok
          { query := query
            topBooks :=
              ((model2RankBooks books bookSims).take nBooks).map
                (fun p => model2BookItem p.2)
            topPapers :=
              ((model2RankPapers papers paperSims).take nPapers).map
                (fun p => model2PaperItem p.2) }

/-! ## model1 `SimplePredictor` (src/models/model1/predict.py) -/

/-- A row of a final CSV as consumed by `_top_k_from_sims`: the values its
`row.get(...) or row.get(...)` coalescing produces for the four projected
identity columns, plus the persisted `final_score` column
(`Option.none` = column absent or NaN, serialized as JSON null). -/
structure Row1 where
  title : Cell
  authors : Cell
  year : Cell
  url : Cell
  finalScore : Option ℚ
deriving DecidableEq, Inhabited

/-- The result dictionary built for one hit (predict.py lines 89-96): identity
fields plus `sim_score` and `final_score`. -/
def model1Item (row : Row1) (sim : ℚ) : List (String × Cell) :=
  [("title", row.title), ("authors", row.authors), ("year", row.year),
   ("sim_score", Cell.num sim),
   ("final_score", match row.finalScore with
     | some v => Cell.num v
     | Option.none => Cell.null),
   ("url", row.url)]

/-- `np.argsort(-sims)`: indices of `sims` in descending value order.  The
relative order of indices with equal values is implementation-defined in
numpy's unstable default quicksort and is not relied upon; the embedding is
exact for the one- and two-element vectors evaluated concretely in this
file. -/
def argsortDesc (xs : List ℚ) : List ℕ :=
  (sortDescBy (fun p => p.2) xs.enum).map (fun p => p.1)

/-- `SimplePredictor._top_k_from_sims` (predict.py lines 78-97): empty sims give
`[]`; otherwise take the first `k` indices of `np.argsort(-sims)`, skip any
index outside the dataframe (`continue`), and build the item dictionaries. -/
def model1TopK (sims : List ℚ) (df : List Row1) (k : ℕ) : List (List (String × Cell)) :=
  if sims.length = 0 then []
  else
    ((argsortDesc sims).take k).filterMap (fun i =>
      if i < df.length then some (model1Item (df.getD i default) (sims.getD i 0))
      else Option.none)

/-- Failures of model1's `predict`: the `ModelTrainingError`s raised by
`_ensure_artifacts` and `_load_metadata`. -/
inductive M1Error where
  | bookArtifactsMissing : M1Error
  | paperArtifactsMissing : M1Error
  | finalCsvsMissing : M1Error
deriving DecidableEq

/-- `os.path.exists` state of the four persisted TF-IDF artifacts. -/
structure Artifacts1 where
  bookModelExists : Bool
  bookMatrixExists : Bool
  paperModelExists : Bool
  paperMatrixExists : Bool
deriving DecidableEq

/-- `SimplePredictor._ensure_artifacts` (predict.py lines 45-65): raise if the
book pair is not fully present, then raise if the paper pair is not. -/
def ensureArtifacts1 (a : Artifacts1) : Except M1Error Unit :=
  if ¬(a.bookModelExists && a.bookMatrixExists) = true then
    Except.error M1Error.bookArtifactsMissing
  else if ¬(a.paperModelExists && a.paperMatrixExists) = true then
    Except.error M1Error.paperArtifactsMissing
  else Except.ok ()

/-- The result dictionary of model1's `predict`: exactly the keys `top_books`
and `top_papers` (predict.py line 126). -/
structure Result1 where
  topBooks : List (List (String × Cell))
  topPapers : List (List (String × Cell))
deriving DecidableEq

/-- `SimplePredictor.predict` (predict.py lines 99-133): `_ensure_artifacts`,
`_load_metadata` (raises unless both final CSVs exist), then one
`_top_k_from_sims` per category.  The cosine-similarity vectors enter as
inputs. -/
def model1Predict (a : Artifacts1) (booksCsvExists papersCsvExists : Bool)
    (bookDf paperDf : List Row1) (bookSims paperSims : List ℚ)
    (kBooks kPapers : ℕ) : Except M1Error Result1 :=
  match ensureArtifacts1 a with
  | Except.error e => Except.error e
  | Except.ok _ =>
    if ¬booksCsvExists = true ∨ ¬papersCsvExists = true then
      Except.error M1Error.finalCsvsMissing
    else
      Except.ok
        { topBooks := model1TopK bookSims bookDf kBooks
          topPapers := model1TopK paperSims paperDf kPapers }

/-! ## Training stages (model1 skip-gate, model2 unconditional refit) -/

/-- Persisted artifact store of model1's trainer: per category, the serialized
vectorizer and matrix files (`Option.none` = file absent). -/
structure Store1 (V M : Type) where
  bookModel : Option V
  bookMatrix : Option M
  paperModel : Option V
  paperMatrix : Option M
deriving DecidableEq

/-- The book half of `initiate_recomendation_model` (model1/model.py lines
94-111): if both files exist, load them and skip refitting; otherwise fit on
the data and persist both. -/
def model1TrainBooks {V M D : Type} (fitB : D → V × M) (d : D)
    (s : Store1 V M) : Store1 V M × V × M :=
  match s.bookModel, s.bookMatrix with
  | some v, some m => (s, v, m)
  | _, _ =>
    let vm := fitB d
    ({ s with bookModel := some vm.1, bookMatrix := some vm.2 }, vm.1, vm.2)

/-- The paper half of `initiate_recomendation_model` (model1/model.py lines
114-130), same gate. -/
def model1TrainPapers {V M D : Type} (fitP : D → V × M) (d : D)
    (s : Store1 V M) : Store1 V M × V × M :=
  match s.paperModel, s.paperMatrix with
  | some v, some m => (s, v, m)
  | _, _ =>
    let vm := fitP d
    ({ s with paperModel := some vm.1, paperMatrix := some vm.2 }, vm.1, vm.2)

/-- The artifact-producing part of `initiate_recomendation_model`: book gate
then paper gate, returning the updated store. -/
def model1TrainStage {V M D : Type} (fitB fitP : D → V × M) (db dp : D)
    (s : Store1 V M) : Store1 V M :=
  model1TrainPapers fitP dp (model1TrainBooks fitB db s).1 |>.1

/-- Persisted artifact store of model2's trainer: the two embedding matrices. -/
structure Store2 (M : Type) where
  bookMatrix : Option M
  paperMatrix : Option M
deriving DecidableEq

/-- model2 `RecommendationModel.train` (model2/model.py lines 41-85): encode
both tables and `np.save` both matrices — no existence check, every run refits
and overwrites. -/
def model2TrainStage {M : Type} (embBooks embPapers : M) (s : Store2 M) : Store2 M :=
  { s with bookMatrix := some embBooks, paperMatrix := some embPapers }

/-! ## Character class lemmas -/

theorem toNat_charOfNat_of_lt {n : Nat} (h : n < 55296) : (Char.ofNat n).toNat = n := by
  have hv : n.isValidChar := Or.inl h
  rw [Char.ofNat, dif_pos hv]
  rfl

theorem toNat_toLower (c : Char) :
    (Char.toLower c).toNat = if 65 ≤ c.toNat ∧ c.toNat ≤ 90 then c.toNat + 32 else c.toNat := by
  unfold Char.toLower
  by_cases h : 65 ≤ c.toNat ∧ c.toNat ≤ 90
  · rw [if_pos ⟨h.1, h.2⟩, if_pos h]
    exact toNat_charOfNat_of_lt (by omega)
  · rw [if_neg ?hn, if_neg h]
    intro hc
    exact h ⟨hc.1, hc.2⟩

theorem toLower_eq_self_of_notUpper {c : Char} (h : isUpperChar c = false) :
    Char.toLower c = c := by
  unfold Char.toLower
  rw [if_neg]
  intro hc
  simp only [isUpperChar, Bool.and_eq_false_iff, decide_eq_false_iff_not, not_le] at h
  rcases h with h | h
  · omega
  · omega

theorem notUpper_toLower (c : Char) : isUpperChar (Char.toLower c) = false := by
  have h := toNat_toLower c
  simp only [isUpperChar, Bool.and_eq_false_iff, decide_eq_false_iff_not, not_le]
  by_cases hc : 65 ≤ c.toNat ∧ c.toNat ≤ 90
  · rw [if_pos hc] at h
    right
    omega
  · rw [if_neg hc] at h
    rw [h]
    omega

theorem space_of_word_eq_false {c : Char} (h : isPyWordChar c = true) :
    isPySpaceChar c = false := by
  simp only [isPyWordChar, Bool.or_eq_true, Bool.and_eq_true, decide_eq_true_eq] at h
  simp only [isPySpaceChar, Bool.or_eq_false_iff, decide_eq_false_iff_not]
  omega

theorem eq_space_of_cleanChar_space {c : Char} (hc : cleanChar c = true)
    (hs : isPySpaceChar c = true) : c = ' ' := by
  simp only [cleanChar, Bool.or_eq_true, Bool.and_eq_true, decide_eq_true_eq] at hc
  rcases hc with ⟨hw, _⟩ | h
  · exact absurd hs (by rw [space_of_word_eq_false hw]; exact Bool.false_ne_true)
  · exact h

theorem wordOrSpace_of_cleanChar {c : Char} (hc : cleanChar c = true) :
    (isPyWordChar c || isPySpaceChar c) = true := by
  simp only [cleanChar, Bool.or_eq_true, Bool.and_eq_true, decide_eq_true_eq] at hc
  simp only [Bool.or_eq_true]
  rcases hc with ⟨hw, _⟩ | h
  · exact Or.inl hw
  · subst h
    exact Or.inr (by decide)

theorem notUpper_of_cleanChar {c : Char} (hc : cleanChar c = true) :
    isUpperChar c = false := by
  simp only [cleanChar, Bool.or_eq_true, Bool.and_eq_true, Bool.not_eq_true',
    decide_eq_true_eq] at hc
  rcases hc with ⟨_, h⟩ | h
  · exact h
  · subst h
    decide

/-! ## Lemmas about `collapseWs` -/

theorem mem_collapseAux {c : Char} :
    ∀ (l : List Char) (b : Bool), c ∈ collapseAux b l →
      c = ' ' ∨ (c ∈ l ∧ isPySpaceChar c = false)
  | [], b, h => absurd h (List.not_mem_nil c)
  | a :: l, b, h => by
    by_cases ha : isPySpaceChar a = true
    · rw [collapseAux, if_pos ha] at h
      cases b with
      | true =>
        rcases mem_collapseAux l true h with h1 | ⟨h1, h2⟩
        · exact Or.inl h1
        · exact Or.inr ⟨List.mem_cons_of_mem a h1, h2⟩
      | false =>
        rw [if_neg Bool.false_ne_true] at h
        rcases List.mem_cons.mp h with h | h
        · exact Or.inl h
        · rcases mem_collapseAux l true h with h1 | ⟨h1, h2⟩
          · exact Or.inl h1
          · exact Or.inr ⟨List.mem_cons_of_mem a h1, h2⟩
    · rw [collapseAux, if_neg ha] at h
      rcases List.mem_cons.mp h with h | h
      · subst h
        exact Or.inr ⟨List.mem_cons_self c l, Bool.eq_false_iff.mpr ha⟩
      · rcases mem_collapseAux l false h with h1 | ⟨h1, h2⟩
        · exact Or.inl h1
        · exact Or.inr ⟨List.mem_cons_of_mem a h1, h2⟩

theorem head_collapseAux_true :
    ∀ l : List Char, ∀ h ∈ (collapseAux true l).head?, isPySpaceChar h = false
  | [], h, hh => by simp [collapseAux] at hh
  | a :: l, h, hh => by
    by_cases ha : isPySpaceChar a = true
    · rw [collapseAux, if_pos ha, if_pos rfl] at hh
      exact head_collapseAux_true l h hh
    · rw [collapseAux, if_neg ha] at hh
      simp only [List.head?_cons, Option.mem_def, Option.some.injEq] at hh
      subst hh
      exact Bool.eq_false_iff.mpr ha

theorem noTwoSpaces_collapseAux : ∀ (l : List Char) (b : Bool), noTwoSpaces (collapseAux b l)
  | [], b => by simp [collapseAux, noTwoSpaces]
  | a :: l, b => by
    by_cases ha : isPySpaceChar a = true
    · rw [collapseAux, if_pos ha]
      cases b with
      | true => exact noTwoSpaces_collapseAux l true
      | false =>
        rw [if_neg Bool.false_ne_true]
        refine List.chain'_cons'.mpr ⟨fun h hh => ?_, noTwoSpaces_collapseAux l true⟩
        exact Or.inr (head_collapseAux_true l h hh)
    · rw [collapseAux, if_neg ha]
      refine List.chain'_cons'.mpr ⟨fun h _ => ?_, noTwoSpaces_collapseAux l false⟩
      exact Or.inl (Bool.eq_false_iff.mpr ha)

/-! ## Lemmas about `lstripSpaces` and `rstripSpaces` -/

theorem mem_rstripSpaces {c : Char} : ∀ l : List Char, c ∈ rstripSpaces l → c ∈ l
  | a :: l, h => by
    rw [rstripSpaces] at h
    by_cases hc : rstripSpaces l = [] ∧ isPySpaceChar a = true
    · rw [if_pos hc] at h
      exact absurd h (List.not_mem_nil c)
    · rw [if_neg hc] at h
      rcases List.mem_cons.mp h with h | h
      · exact h ▸ List.mem_cons_self c l
      · exact List.mem_cons_of_mem a (mem_rstripSpaces l h)

theorem headNotSpace_rstripSpaces : ∀ l : List Char, headNotSpace l = true →
    headNotSpace (rstripSpaces l) = true
  | [], _ => rfl
  | a :: l, h => by
    rw [rstripSpaces]
    by_cases hc : rstripSpaces l = [] ∧ isPySpaceChar a = true
    · rw [if_pos hc]
      rfl
    · rw [if_neg hc]
      exact h

theorem head?_rstripSpaces : ∀ l : List Char,
    rstripSpaces l = [] ∨ (rstripSpaces l).head? = l.head?
  | [] => Or.inl rfl
  | a :: l => by
    rw [rstripSpaces]
    by_cases hc : rstripSpaces l = [] ∧ isPySpaceChar a = true
    · rw [if_pos hc]
      exact Or.inl rfl
    · rw [if_neg hc]
      exact Or.inr rfl

theorem noTwoSpaces_rstripSpaces : ∀ l : List Char, noTwoSpaces l →
    noTwoSpaces (rstripSpaces l)
  | [], _ => List.chain'_nil
  | a :: l, h => by
    rcases List.chain'_cons'.mp h with ⟨hrel, htail⟩
    rw [rstripSpaces]
    by_cases hc : rstripSpaces l = [] ∧ isPySpaceChar a = true
    · rw [if_pos hc]
      exact List.chain'_nil
    · rw [if_neg hc]
      refine List.chain'_cons'.mpr ⟨fun h2 hh2 => ?_, noTwoSpaces_rstripSpaces l htail⟩
      rcases head?_rstripSpaces l with he | he
      · rw [he] at hh2
        exact absurd hh2 (by simp)
      · exact hrel h2 (by rw [← he]; exact hh2)

theorem lastNotSpace_rstripSpaces : ∀ l : List Char, lastNotSpace (rstripSpaces l) = true
  | [] => rfl
  | a :: l => by
    rw [rstripSpaces]
    by_cases hc : rstripSpaces l = [] ∧ isPySpaceChar a = true
    · rw [if_pos hc]
      rfl
    · rw [if_neg hc]
      rcases Decidable.not_and_iff_or_not.mp hc with hr | hs
      · match he : rstripSpaces l, hr with
        | [], hr => exact absurd rfl hr
        | b :: bs, _ =>
          have := lastNotSpace_rstripSpaces l
          rw [he] at this
          exact this
      · match he : rstripSpaces l with
        | [] => simpa [lastNotSpace] using Bool.eq_false_iff.mp (eq_false_of_ne_true hs)
        | b :: bs =>
          have := lastNotSpace_rstripSpaces l
          rw [he] at this
          exact this

theorem rstripSpaces_eq_self : ∀ l : List Char, lastNotSpace l = true → rstripSpaces l = l
  | [], _ => rfl
  | [a], h => by
    have ha : isPySpaceChar a = false := by
      simpa [lastNotSpace] using h
    have hc : ¬(rstripSpaces ([] : List Char) = [] ∧ isPySpaceChar a = true) := by
      intro hc
      rw [ha] at hc
      exact Bool.false_ne_true hc.2
    rw [rstripSpaces, if_neg hc]
    rfl
  | a :: b :: l, h => by
    have htail : rstripSpaces (b :: l) = b :: l :=
      rstripSpaces_eq_self (b :: l) (by simpa [lastNotSpace] using h)
    have hc : ¬(rstripSpaces (b :: l) = [] ∧ isPySpaceChar a = true) := by
      intro hc
      rw [htail] at hc
      exact List.cons_ne_nil b l hc.1
    rw [rstripSpaces, if_neg hc, htail]

theorem headNotSpace_lstripSpaces : ∀ l : List Char, headNotSpace (lstripSpaces l) = true
  | [] => rfl
  | a :: l => by
    rw [lstripSpaces, List.dropWhile_cons]
    by_cases hc : isPySpaceChar a = true
    · rw [if_pos hc]
      exact headNotSpace_lstripSpaces l
    · rw [if_neg hc]
      simpa [headNotSpace] using Bool.eq_false_iff.mpr hc

theorem lstripSpaces_eq_self (l : List Char) (h : headNotSpace l = true) :
    lstripSpaces l = l := by
  match l with
  | [] => rfl
  | a :: l =>
    have ha : isPySpaceChar a = false := by simpa [headNotSpace] using h
    rw [lstripSpaces, List.dropWhile_cons, if_neg (by rw [ha]; exact Bool.false_ne_true)]

theorem mem_lstripSpaces {c : Char} (l : List Char) (h : c ∈ lstripSpaces l) : c ∈ l :=
  (List.dropWhile_sublist isPySpaceChar).subset h

theorem noTwoSpaces_lstripSpaces : ∀ l : List Char, noTwoSpaces l →
    noTwoSpaces (lstripSpaces l)
  | [], _ => List.chain'_nil
  | a :: l, h => by
    rw [lstripSpaces, List.dropWhile_cons]
    by_cases hc : isPySpaceChar a = true
    · rw [if_pos hc]
      exact noTwoSpaces_lstripSpaces l (List.chain'_cons'.mp h).2
    · rw [if_neg hc]
      exact h

/-! ## The cleaned-text characterization -/

theorem isCleanStr_pipeline (s : List Char) :
    IsCleanStr (pyStripChars (collapseWs (removeNonWord (pyLowerStr s)))) := by
  refine ⟨fun c hc => ?_, ?_, ?_, ?_⟩
  · have h1 : c ∈ collapseWs (removeNonWord (pyLowerStr s)) :=
      mem_lstripSpaces _ (mem_rstripSpaces _ hc)
    rcases mem_collapseAux _ false h1 with h2 | ⟨h2, hsp⟩
    · subst h2
      decide
    · rcases List.mem_filter.mp h2 with ⟨h3, h4⟩
      have hword : isPyWordChar c = true := by
        rcases Bool.or_eq_true_iff.mp h4 with h | h
        · exact h
        · rw [h] at hsp
          exact absurd hsp (by decide)
      rcases List.mem_map.mp h3 with ⟨a, _, ha⟩
      have hup : isUpperChar c = false := ha ▸ notUpper_toLower a
      simp [cleanChar, hword, hup]
  · exact noTwoSpaces_rstripSpaces _
      (noTwoSpaces_lstripSpaces _ (noTwoSpaces_collapseAux _ false))
  · exact headNotSpace_rstripSpaces _ (headNotSpace_lstripSpaces _)
  · exact lastNotSpace_rstripSpaces _

theorem isCleanStr_cleanText : ∀ v : PyVal, IsCleanStr (cleanText v)
  | PyVal.nan => ⟨fun c hc => absurd hc (List.not_mem_nil c), List.chain'_nil, rfl, rfl⟩
  | PyVal.str s => isCleanStr_pipeline s
  | PyVal.intVal n => isCleanStr_pipeline (toString n).data

theorem pyLowerStr_eq_self : ∀ l : List Char, (∀ c ∈ l, cleanChar c = true) →
    pyLowerStr l = l
  | [], _ => rfl
  | a :: l, h => by
    rw [pyLowerStr, List.map_cons,
      toLower_eq_self_of_notUpper (notUpper_of_cleanChar (h a (List.mem_cons_self a l)))]
    have := pyLowerStr_eq_self l (fun c hc => h c (List.mem_cons_of_mem a hc))
    rw [pyLowerStr] at this
    rw [this]

theorem removeNonWord_eq_self (l : List Char) (h : ∀ c ∈ l, cleanChar c = true) :
    removeNonWord l = l :=
  List.filter_eq_self.mpr fun c hc => wordOrSpace_of_cleanChar (h c hc)

theorem collapseAux_eq_self : ∀ l : List Char, (∀ c ∈ l, cleanChar c = true) →
    noTwoSpaces l →
    collapseAux false l = l ∧ (headNotSpace l = true → collapseAux true l = l)
  | [], _, _ => ⟨rfl, fun _ => rfl⟩
  | a :: l, hchars, hnts => by
    rcases List.chain'_cons'.mp hnts with ⟨hrel, htail⟩
    have hchars' : ∀ c ∈ l, cleanChar c = true :=
      fun c hc => hchars c (List.mem_cons_of_mem a hc)
    have ih := collapseAux_eq_self l hchars' htail
    by_cases ha : isPySpaceChar a = true
    · have haeq : a = ' ' :=
        eq_space_of_cleanChar_space (hchars a (List.mem_cons_self a l)) ha
      have hheadl : headNotSpace l = true := by
        match l with
        | [] => rfl
        | b :: bs =>
          have hrb := hrel b rfl
          rcases hrb with h | h
          · rw [ha] at h
            exact absurd h (by decide)
          · simpa [headNotSpace] using h
      constructor
      · rw [collapseAux, if_pos ha, if_neg Bool.false_ne_true, ih.2 hheadl, haeq]
      · intro hh
        rw [headNotSpace, ha] at hh
        exact absurd hh (by decide)
    · constructor
      · rw [collapseAux, if_neg ha, ih.1]
      · intro _
        rw [collapseAux, if_neg ha, ih.1]

theorem cleanText_eq_self_of_clean (l : List Char) (h : IsCleanStr l) :
    cleanText (PyVal.str l) = l := by
  obtain ⟨hchars, hnts, hhead, hlast⟩ := h
  show pyStripChars (collapseWs (removeNonWord (pyLowerStr l))) = l
  rw [pyLowerStr_eq_self l hchars, removeNonWord_eq_self l hchars]
  have hcoll : collapseWs l = l := (collapseAux_eq_self l hchars hnts).1
  rw [show collapseWs l = l from hcoll, pyStripChars, lstripSpaces_eq_self l hhead,
    rstripSpaces_eq_self l hlast]

/-- Claim C7: the combined-text cleaning function is total — it is defined (and
returns a string) on every input, including non-string values, and both the
empty string and a NaN input are mapped to the empty string. -/
theorem cleanText_total_empty_nan :
    cleanText (PyVal.str []) = [] ∧ cleanText PyVal.nan = [] ∧
      ∀ v : PyVal, ∃ s : List Char, cleanText v = s := by
  refine ⟨rfl, rfl, fun v => ⟨cleanText v, rfl⟩⟩

/-- Claim C8: every `combined_text` value produced by feature building (for book
rows and for paper rows alike) is a string whose characters are all word
characters or whitespace, contains no uppercase letter, and has no run of more
than one consecutive whitespace character. -/
theorem combinedText_wellformed :
    ∀ t d c a : PyVal,
      ((∀ ch ∈ bookCombinedText t d c a,
          (isPyWordChar ch || isPySpaceChar ch) = true ∧ isUpperChar ch = false) ∧
        noTwoSpaces (bookCombinedText t d c a)) ∧
      ((∀ ch ∈ paperCombinedText t d c a,
          (isPyWordChar ch || isPySpaceChar ch) = true ∧ isUpperChar ch = false) ∧
        noTwoSpaces (paperCombinedText t d c a)) := by
  intro t d c a
  have hb := isCleanStr_cleanText (PyVal.str (combined4 t d c a))
  exact ⟨⟨fun ch hch => ⟨wordOrSpace_of_cleanChar (hb.1 ch hch),
            notUpper_of_cleanChar (hb.1 ch hch)⟩, hb.2.1⟩,
         ⟨fun ch hch => ⟨wordOrSpace_of_cleanChar (hb.1 ch hch),
            notUpper_of_cleanChar (hb.1 ch hch)⟩, hb.2.1⟩⟩

/-- Witness for C8 at a concrete book row: title `"AB"`, the other fields
missing (`NaN`); the first character of the cleaned combined text is a clean
lowercase word character. -/
theorem combinedText_wellformed_witness :
    ('a' ∈ bookCombinedText (PyVal.str ['A', 'B']) PyVal.nan PyVal.nan PyVal.nan) ∧
      (isPyWordChar 'a' || isPySpaceChar 'a') = true ∧ isUpperChar 'a' = false := by
  refine ⟨by decide, ?_⟩
  exact ((combinedText_wellformed (PyVal.str ['A', 'B']) PyVal.nan PyVal.nan
    PyVal.nan).1.1 'a' (by decide))

/-- Claim C10: the combined-text cleaning function is idempotent — cleaning an
already-cleaned string changes nothing, for every input value. -/
theorem cleanText_idempotent :
    ∀ v : PyVal, cleanText (PyVal.str (cleanText v)) = cleanText v :=
  fun v => cleanText_eq_self_of_clean (cleanText v) (isCleanStr_cleanText v)

theorem foldl_min_le_init : ∀ (xs : List ℚ) (x : ℚ), xs.foldl min x ≤ x
  | [], x => le_refl x
  | a :: xs, x => le_trans (foldl_min_le_init xs (min x a)) (min_le_left x a)

theorem foldl_min_le_mem : ∀ (xs : List ℚ) (x y : ℚ), y ∈ xs → xs.foldl min x ≤ y
  | a :: xs, x, y, h => by
    rw [List.foldl_cons]
    rcases List.mem_cons.mp h with h | h
    · subst h
      exact le_trans (foldl_min_le_init xs (min x y)) (min_le_right x y)
    · exact foldl_min_le_mem xs (min x a) y h

theorem le_foldl_min : ∀ (xs : List ℚ) (x c : ℚ), c ≤ x → (∀ y ∈ xs, c ≤ y) →
    c ≤ xs.foldl min x
  | [], _, _, hx, _ => hx
  | a :: xs, x, c, hx, h => by
    rw [List.foldl_cons]
    exact le_foldl_min xs (min x a) c (le_min hx (h a (List.mem_cons_self a xs)))
      (fun y hy => h y (List.mem_cons_of_mem a hy))

theorem init_le_foldl_max : ∀ (xs : List ℚ) (x : ℚ), x ≤ xs.foldl max x
  | [], x => le_refl x
  | a :: xs, x => le_trans (le_max_left x a) (init_le_foldl_max xs (max x a))

theorem mem_le_foldl_max : ∀ (xs : List ℚ) (x y : ℚ), y ∈ xs → y ≤ xs.foldl max x
  | a :: xs, x, y, h => by
    rw [List.foldl_cons]
    rcases List.mem_cons.mp h with h | h
    · subst h
      exact le_trans (le_max_right x y) (init_le_foldl_max xs (max x y))
    · exact mem_le_foldl_max xs (max x a) y h

theorem scaleVal_bounds {m M y : ℚ} (hm : m ≤ y) (hM : y ≤ M) :
    0 ≤ scaleVal m M y ∧ scaleVal m M y ≤ 1 := by
  unfold scaleVal
  by_cases h : M = m
  · rw [if_pos h]
    have hy : y = m := le_antisymm (h ▸ hM) hm
    rw [hy]
    norm_num
  · rw [if_neg h]
    have hlt : m < M := lt_of_le_of_ne (le_trans hm hM) (Ne.symm h)
    have hd : 0 < M - m := by linarith
    constructor
    · exact div_nonneg (by linarith) (le_of_lt hd)
    · rw [div_le_one hd]
      linarith

theorem minmaxScale_mem_bounds : ∀ (xs : List ℚ) (s : ℚ), s ∈ minmaxScale xs →
    0 ≤ s ∧ s ≤ 1 := by
  intro xs s hs
  match xs with
  | [] => exact absurd hs (List.not_mem_nil s)
  | x :: l =>
    rcases List.mem_map.mp hs with ⟨y, hy, rfl⟩
    have hm : l.foldl min x ≤ y := by
      rcases List.mem_cons.mp hy with h | h
      · exact h ▸ foldl_min_le_init l x
      · exact foldl_min_le_mem l x y h
    have hM : y ≤ l.foldl max x := by
      rcases List.mem_cons.mp hy with h | h
      · exact h ▸ init_le_foldl_max l x
      · exact mem_le_foldl_max l x y h
    exact scaleVal_bounds hm hM

theorem mem_placeBackScores : ∀ (col : List (Option ℚ)) (ss : List ℚ) (s : ℚ),
    s ∈ placeBackScores col ss → s = 0 ∨ s ∈ ss
  | [], _, s, h => absurd h (List.not_mem_nil s)
  | Option.none :: rest, ss, s, h => by
    rcases List.mem_cons.mp h with h | h
    · exact Or.inl h
    · exact mem_placeBackScores rest ss s h
  | some _ :: rest, [], s, h => by
    rcases List.mem_cons.mp h with h | h
    · exact Or.inl h
    · exact mem_placeBackScores rest [] s h
  | some _ :: rest, t :: ts, s, h => by
    rcases List.mem_cons.mp h with h | h
    · exact Or.inr (h ▸ List.mem_cons_self t ts)
    · rcases mem_placeBackScores rest ts s h with h1 | h1
      · exact Or.inl h1
      · exact Or.inr (List.mem_cons_of_mem t h1)

theorem placeBackScores_nil : ∀ col : List (Option ℚ),
    placeBackScores col [] = col.map (fun _ => 0)
  | [] => rfl
  | Option.none :: rest => by
    rw [placeBackScores, placeBackScores_nil rest, List.map_cons]
  | some x :: rest => by
    rw [placeBackScores, placeBackScores_nil rest, List.map_cons]

theorem filterMap_id_eq_nil_of_not_any : ∀ col : List (Option ℚ),
    ¬col.any (fun o => o.isSome) = true → col.filterMap id = []
  | [], _ => rfl
  | o :: rest, h => by
    rw [List.any_cons] at h
    match o with
    | Option.none =>
      rw [List.filterMap_cons]
      exact filterMap_id_eq_nil_of_not_any rest (fun hr => h (by rw [hr]; simp))
    | some x =>
      exact absurd (by simp) h

theorem foldl_min_le_of_mem_cons {x y : ℚ} {l : List ℚ} (h : y ∈ x :: l) :
    l.foldl min x ≤ y := by
  rcases List.mem_cons.mp h with h | h
  · exact h ▸ foldl_min_le_init l x
  · exact foldl_min_le_mem l x y h

/-! ## Theorems for claim C3 -/

/-- Claim C3 counterexample: for the rating column `[3, 5, missing]` the code
fills the missing value with 0 before fitting the scaler, so the min is 0 and
row 0 scores 3/5, while the spec's valid-rows-only scaling yields score 0 for
row 0 — the missing value does participate in the min/max computation. -/
theorem scores_minmax_counterexample :
    fillna0Scores [some 3, some 5, Option.none] = [3 / 5, 1, 0] ∧
      specValidOnlyScores [some 3, some 5, Option.none] = [0, 1, 0] ∧
      fillna0Scores [some 3, some 5, Option.none] ≠
        specValidOnlyScores [some 3, some 5, Option.none] := by
  refine ⟨?_, ?_, ?_⟩ <;>
    norm_num [fillna0Scores, fillMissingWithZero, minmaxScale, scaleVal,
      specValidOnlyScores, placeBackScores, List.filterMap_cons, id, min_def, max_def]

/-- Claim C3 (amended): only the recency score excludes rows without a valid
raw value from the min/max fit (and so matches the spec's valid-rows-only
scaling); the rating/page/citations scores fill missing values with 0, which
then participate in the min/max fit.  Every resulting score lies in [0,1], and
— provided all present raw values are non-negative, as the quality signals are
— a row with a missing raw value still receives score 0. -/
theorem scores_minmax_amended :
    (∀ col : List (Option ℚ), recencyScores col = specValidOnlyScores col) ∧
      (∀ (col : List (Option ℚ)) (s : ℚ), s ∈ fillna0Scores col → 0 ≤ s ∧ s ≤ 1) ∧
      (∀ (col : List (Option ℚ)) (s : ℚ), s ∈ recencyScores col → 0 ≤ s ∧ s ≤ 1) ∧
      (∀ col : List (Option ℚ), (∀ x ∈ col.filterMap id, 0 ≤ x) →
        ∀ i : ℕ, col.get? i = some Option.none → (fillna0Scores col).get? i = some 0) := by
  refine ⟨?_, ?_, ?_, ?_⟩
  · intro col
    by_cases h : col.any (fun o => o.isSome) = true
    · rw [recencyScores, if_pos h]
      rfl
    · rw [recencyScores, if_neg h, specValidOnlyScores,
        filterMap_id_eq_nil_of_not_any col h]
      rw [show minmaxScale [] = [] from rfl, placeBackScores_nil]
  · intro col s hs
    exact minmaxScale_mem_bounds _ s hs
  · intro col s hs
    rw [recencyScores] at hs
    by_cases h : col.any (fun o => o.isSome) = true
    · rw [if_pos h] at hs
      rcases mem_placeBackScores _ _ s hs with h1 | h1
      · subst h1
        norm_num
      · exact minmaxScale_mem_bounds _ s h1
    · rw [if_neg h] at hs
      rcases List.mem_map.mp hs with ⟨_, _, h1⟩
      rw [← h1]
      norm_num
  · intro col hpos i hi
    have hnonneg : ∀ y ∈ fillMissingWithZero col, 0 ≤ y := by
      intro y hy
      rcases List.mem_map.mp hy with ⟨o, ho, rfl⟩
      match o with
      | Option.none => exact le_refl 0
      | some x => exact hpos x (List.mem_filterMap.mpr ⟨some x, ho, rfl⟩)
    have h0mem : (0 : ℚ) ∈ fillMissingWithZero col := by
      have hmem : Option.none ∈ col := List.get?_mem hi
      exact List.mem_map.mpr ⟨Option.none, hmem, rfl⟩
    have hget : (fillMissingWithZero col).get? i = some 0 := by
      rw [fillMissingWithZero, List.get?_map, hi]
      rfl
    match hcol : fillMissingWithZero col with
    | [] => rw [hcol] at hget; exact absurd hget (by simp)
    | x :: l =>
      rw [hcol] at hget h0mem hnonneg
      have hm : l.foldl min x = 0 := by
        refine le_antisymm (foldl_min_le_of_mem_cons h0mem) ?_
        exact le_foldl_min l x 0 (hnonneg x (List.mem_cons_self x l))
          (fun y hy => hnonneg y (List.mem_cons_of_mem x hy))
      rw [fillna0Scores, hcol, minmaxScale, List.get?_map, hget]
      simp [scaleVal, hm]

/-- Witness for the amended C3 at concrete columns: the recency rule agrees
with the spec on `[3, missing]`, the score 3/5 produced for `[3, 5, missing]`
lies in [0,1], and the missing row of that column scores 0. -/
theorem scores_minmax_amended_witness :
    recencyScores [some 3, Option.none] = specValidOnlyScores [some 3, Option.none] ∧
      (0 ≤ (3 : ℚ) / 5 ∧ (3 : ℚ) / 5 ≤ 1) ∧
      (fillna0Scores [some 3, some 5, Option.none]).get? 2 = some 0 :=
  ⟨scores_minmax_amended.1 [some 3, Option.none],
   scores_minmax_amended.2.1 [some 3, some 5, Option.none] (3 / 5)
     (by norm_num [fillna0Scores, fillMissingWithZero, minmaxScale, scaleVal,
       min_def, max_def]),
   scores_minmax_amended.2.2.2 [some 3, some 5, Option.none]
     (by norm_num [List.filterMap_cons, id]) 2 rfl⟩

/-! ## Order of the descending sort -/

theorem sortDescBy_pairwise_ge {α : Type} (key : α → ℚ) (l : List α) :
    (sortDescBy key l).Pairwise (fun a b => key b ≤ key a) := by
  haveI : IsTotal α (fun a b => key b ≤ key a) :=
    ⟨fun a b => le_total (key b) (key a)⟩
  haveI : IsTrans α (fun a b => key b ≤ key a) :=
    ⟨fun a b c hab hbc => le_trans hbc hab⟩
  exact List.sorted_insertionSort _ l

theorem sortDescBy_perm {α : Type} (key : α → ℚ) (l : List α) :
    (sortDescBy key l).Perm l :=
  List.perm_insertionSort _ l

theorem getD_of_mem_enum {l : List ℚ} {p : ℕ × ℚ} (h : p ∈ l.enum) :
    l.getD p.1 0 = p.2 := by
  have h2 := List.mem_enum_iff_getElem?.mp h
  rw [List.getD_eq_getElem?_getD, h2]
  rfl

/-! ## Theorems for claim C1 -/

/-- Claim C1 (amended): model2's ranking orders each category by `final_score`
descending — the ranked table is pairwise ordered by descending `final_score`
and is a permutation of the scored table — while model1's `_top_k_from_sims`
ranks by `sim_score` descending, not by `final_score`.  Both rankers are pure
functions of the query and artifacts, so determinism is immediate.  The spec's
ties-broken-by-original-row-order guarantee is not asserted: both code paths
sort with the library default quicksort, which numpy and pandas document as
unstable, so the relative order of equal keys is implementation-defined. -/
theorem ranking_order_amended :
    (∀ (books : List BookF) (sims : List ℚ),
        (model2RankBooks books sims).Pairwise
          (fun p q => q.2.finalScore ≤ p.2.finalScore) ∧
        (model2RankBooks books sims).Perm (model2ScoredBooks books sims)) ∧
      (∀ (papers : List PaperF) (sims : List ℚ),
          (model2RankPapers papers sims).Pairwise
            (fun p q => q.2.finalScore ≤ p.2.finalScore) ∧
          (model2RankPapers papers sims).Perm (model2ScoredPapers papers sims)) ∧
      (∀ (sims : List ℚ) (k : ℕ),
          ((argsortDesc sims).take k).Pairwise
            (fun i j => sims.getD j 0 ≤ sims.getD i 0)) := by
  refine ⟨fun books sims => ⟨?_, ?_⟩, fun papers sims => ⟨?_, ?_⟩, fun sims k => ?_⟩
  · exact sortDescBy_pairwise_ge _ _
  · exact sortDescBy_perm _ _
  · exact sortDescBy_pairwise_ge _ _
  · exact sortDescBy_perm _ _
  · refine List.Pairwise.sublist (List.take_sublist k _) ?_
    rw [argsortDesc, List.pairwise_map]
    have hsorted := sortDescBy_pairwise_ge (fun p : ℕ × ℚ => p.2) sims.enum
    have himp : ∀ p q : ℕ × ℚ,
        p ∈ sortDescBy (fun p : ℕ × ℚ => p.2) sims.enum →
        q ∈ sortDescBy (fun p : ℕ × ℚ => p.2) sims.enum →
        q.2 ≤ p.2 → sims.getD q.1 0 ≤ sims.getD p.1 0 := by
      intro p q hp hq hle
      have hpv : sims.getD p.1 0 = p.2 :=
        getD_of_mem_enum ((sortDescBy_perm _ _).mem_iff.mp hp)
      have hqv : sims.getD q.1 0 = q.2 :=
        getD_of_mem_enum ((sortDescBy_perm _ _).mem_iff.mp hq)
      rw [hpv, hqv]
      exact hle
    exact hsorted.imp_of_mem (fun ha hb hr => himp _ _ ha hb hr)

/-- Claim C1 counterexample: with two rows whose persisted `final_score`s are
`[9/10, 1/10]` and query similarities `[1/10, 9/10]`, model1's
`_top_k_from_sims` returns the rows in order of `sim_score`, so the returned
`final_score` sequence is `[1/10, 9/10]` — not descending: the ranking
operation does not order items by `final_score`. -/
theorem ranking_order_counterexample :
    (model1TopK [1 / 10, 9 / 10]
        [⟨Cell.null, Cell.null, Cell.null, Cell.null, some (9 / 10)⟩,
         ⟨Cell.null, Cell.null, Cell.null, Cell.null, some (1 / 10)⟩] 2).map
        (fun it => List.lookup "final_score" it) =
      [some (Cell.num (1 / 10)), some (Cell.num (9 / 10))] ∧
    ¬((9 : ℚ) / 10 ≤ 1 / 10) := by
  constructor
  · norm_num [model1TopK, argsortDesc, sortDescBy, List.insertionSort,
      List.orderedInsert, model1Item, List.lookup, List.enum, List.enumFrom,
      List.filterMap_cons, List.filterMap_nil]
    exact ⟨rfl, rfl⟩
  · norm_num

/-! ## Theorems for claim C2 -/

/-- Claim C2: every item scored by the ranking stage has
`final_score = 0.55*sim + 0.25*rating + 0.15*recency + 0.05*page` (books) and
`final_score = 0.60*sim + 0.30*citations + 0.10*recency` (papers) — the same
constants in both model implementations — and the weight sets sum to 1 per
category. -/
theorem finalScore_formula :
    (∀ (b : BookF) (s : ℚ),
        (scoreBook b s).finalScore =
          0.55 * (scoreBook b s).simScore + 0.25 * b.ratingScore +
            0.15 * b.recencyScore + 0.05 * b.pageScore) ∧
      (∀ (p : PaperF) (s : ℚ),
          (scorePaper p s).finalScore =
            0.60 * (scorePaper p s).simScore + 0.30 * p.citationsScore +
              0.10 * p.recencyScore) ∧
      ((0.55 : ℚ) + 0.25 + 0.15 + 0.05 = 1 ∧ (0.60 : ℚ) + 0.30 + 0.10 = 1) ∧
      (∀ (books : List BookF) (sims : List ℚ),
          ∀ pr ∈ model2ScoredBooks books sims,
            pr.2.finalScore =
              0.55 * pr.2.simScore + 0.25 * pr.2.book.ratingScore +
                0.15 * pr.2.book.recencyScore + 0.05 * pr.2.book.pageScore) ∧
      (∀ (papers : List PaperF) (sims : List ℚ),
          ∀ pr ∈ model2ScoredPapers papers sims,
            pr.2.finalScore =
              0.60 * pr.2.simScore + 0.30 * pr.2.paper.citationsScore +
                0.10 * pr.2.paper.recencyScore) := by
  refine ⟨fun b s => rfl, fun p s => rfl, by norm_num, ?_, ?_⟩
  · intro books sims pr hpr
    have h2 := List.mem_enum_iff_getElem?.mp hpr
    have hmem : pr.2 ∈ (books.zip sims).map (fun bs => scoreBook bs.1 bs.2) :=
      List.getElem?_mem h2
    rcases List.mem_map.mp hmem with ⟨bs, _, hb⟩
    rw [← hb]
    rfl
  · intro papers sims pr hpr
    have h2 := List.mem_enum_iff_getElem?.mp hpr
    have hmem : pr.2 ∈ (papers.zip sims).map (fun ps => scorePaper ps.1 ps.2) :=
      List.getElem?_mem h2
    rcases List.mem_map.mp hmem with ⟨ps, _, hp⟩
    rw [← hp]
    rfl

/-- Witness for C2 at one concrete scored book row (all identity cells null,
rating/recency/page scores 1/2, 1/3, 1/4, sim 1/5), both directly and through
the scored-table membership form. -/
theorem finalScore_formula_witness :
    ((scoreBook ⟨Cell.null, Cell.null, Cell.null, Cell.null, Cell.null,
        Cell.null, Cell.null, 1 / 2, 1 / 3, 1 / 4⟩ (1 / 5)).finalScore =
      0.55 * (scoreBook ⟨Cell.null, Cell.null, Cell.null, Cell.null, Cell.null,
        Cell.null, Cell.null, 1 / 2, 1 / 3, 1 / 4⟩ (1 / 5)).simScore +
        0.25 * (1 / 2 : ℚ) + 0.15 * (1 / 3 : ℚ) + 0.05 * (1 / 4 : ℚ)) ∧
    (((0 : ℕ), scoreBook ⟨Cell.null, Cell.null, Cell.null, Cell.null, Cell.null,
        Cell.null, Cell.null, 1 / 2, 1 / 3, 1 / 4⟩ (1 / 5)) :
          ℕ × ScoredBook).2.finalScore =
      0.55 * (((0 : ℕ), scoreBook ⟨Cell.null, Cell.null, Cell.null, Cell.null,
          Cell.null, Cell.null, Cell.null, 1 / 2, 1 / 3, 1 / 4⟩ (1 / 5)) :
            ℕ × ScoredBook).2.simScore +
        0.25 * (1 / 2 : ℚ) + 0.15 * (1 / 3 : ℚ) + 0.05 * (1 / 4 : ℚ) :=
  ⟨finalScore_formula.1 ⟨Cell.null, Cell.null, Cell.null, Cell.null, Cell.null,
     Cell.null, Cell.null, 1 / 2, 1 / 3, 1 / 4⟩ (1 / 5),
   finalScore_formula.2.2.2.1
     [⟨Cell.null, Cell.null, Cell.null, Cell.null, Cell.null, Cell.null,
       Cell.null, 1 / 2, 1 / 3, 1 / 4⟩] [1 / 5]
     ((0 : ℕ), scoreBook ⟨Cell.null, Cell.null, Cell.null, Cell.null, Cell.null,
       Cell.null, Cell.null, 1 / 2, 1 / 3, 1 / 4⟩ (1 / 5))
     (List.mem_singleton.mpr rfl)⟩

/-! ## Theorems for claim C4 -/

/-- Claim C4 (amended): model2's `recommend` does fail before producing any
ranked result when a similarity matrix's row count differs from its feature
table's (the pandas column assignment raises; first books, then papers) — but
model1's `_top_k_from_sims` silently tolerates a mismatched pair: it never
raises, it just skips every argsort index that falls outside the dataframe and
ranks what remains. -/
theorem artifact_mismatch_amended :
    (∀ (q : List Char) (nB nP : ℕ) (books : List BookF) (papers : List PaperF)
        (bs ps : List ℚ), books.length ≠ bs.length →
        model2Recommend q nB nP books papers (some bs) (some ps) =
          Except.error M2Error.bookSimLengthMismatch) ∧
      (∀ (q : List Char) (nB nP : ℕ) (books : List BookF) (papers : List PaperF)
          (bs ps : List ℚ), books.length = bs.length → papers.length ≠ ps.length →
          model2Recommend q nB nP books papers (some bs) (some ps) =
            Except.error M2Error.paperSimLengthMismatch) ∧
      (∀ (sims : List ℚ) (df : List Row1) (k : ℕ),
          (model1TopK sims df k).length ≤ k ∧
            ∀ it ∈ model1TopK sims df k, ∃ i : ℕ, i < df.length ∧
              it = model1Item (df.getD i default) (sims.getD i 0)) := by
  refine ⟨?_, ?_, ?_⟩
  · intro q nB nP books papers bs ps h
    simp only [model2Recommend]
    rw [if_pos h]
  · intro q nB nP books papers bs ps heq h
    simp only [model2Recommend]
    rw [if_neg (fun hne => hne heq), if_pos h]
  · intro sims df k
    rw [model1TopK]
    by_cases h0 : sims.length = 0
    · rw [if_pos h0]
      exact ⟨Nat.zero_le k, fun it hit => absurd hit (List.not_mem_nil it)⟩
    · rw [if_neg h0]
      constructor
      · exact le_trans (List.length_filterMap_le _ _) (List.length_take_le k _)
      · intro it hit
        rcases List.mem_filterMap.mp hit with ⟨i, _, hf⟩
        by_cases hi : i < df.length
        · rw [if_pos hi] at hf
          exact ⟨i, hi, (Option.some.injEq _ _ ▸ hf).symm⟩
        · rw [if_neg hi] at hf
          exact absurd hf (by simp)

/-- Witness for the amended C4: an empty books table against a one-row
similarity vector makes model2 raise the length-mismatch error, and model1's
ranker on a two-long sims vector against a one-row table stays within bounds. -/
theorem artifact_mismatch_amended_witness :
    model2Recommend [] 1 1 ([] : List BookF) ([] : List PaperF)
        (some [1 / 2]) (some []) = Except.error M2Error.bookSimLengthMismatch ∧
      (model1TopK [1 / 2, 3 / 4]
          [⟨Cell.null, Cell.null, Cell.null, Cell.null, Option.none⟩] 2).length ≤ 2 :=
  ⟨artifact_mismatch_amended.1 [] 1 1 [] [] [1 / 2] [] (by decide),
   (artifact_mismatch_amended.2.2 [1 / 2, 3 / 4]
     [⟨Cell.null, Cell.null, Cell.null, Cell.null, Option.none⟩] 2).1⟩

/-- Claim C4 counterexample: with every artifact present, a two-row similarity
vector and a one-row books table, model1's `predict` succeeds — it returns an
`ok` result containing one ranked book — instead of raising a fatal mismatch
error: a mismatched pair is silently tolerated. -/
theorem artifact_mismatch_counterexample :
    (model1Predict ⟨true, true, true, true⟩ true true
          [⟨Cell.null, Cell.null, Cell.null, Cell.null, Option.none⟩]
          [⟨Cell.null, Cell.null, Cell.null, Cell.null, Option.none⟩]
          [1 / 2, 3 / 4] [1 / 2] 3 2).isOk = true ∧
      (model1Predict ⟨true, true, true, true⟩ true true
          [⟨Cell.null, Cell.null, Cell.null, Cell.null, Option.none⟩]
          [⟨Cell.null, Cell.null, Cell.null, Cell.null, Option.none⟩]
          [1 / 2, 3 / 4] [1 / 2] 3 2).map (fun r => r.topBooks.length) =
        Except.ok 1 := by
  constructor <;>
    norm_num [model1Predict, ensureArtifacts1, model1TopK, argsortDesc,
      sortDescBy, List.insertionSort, List.orderedInsert, List.enum,
      List.enumFrom, List.filterMap_cons, List.filterMap_nil, Except.map,
      Except.isOk, Except.toBool]

/-! ## Theorems for claim C5 -/

/-- Claim C5 (amended): a missing artifact does not degrade to an empty list
for just that category — model1's `predict` raises `ModelTrainingError` for the
whole call: if the book model/matrix pair is incomplete the call fails with the
book error (regardless of the paper artifacts), and if the book pair is present
but the paper pair incomplete it fails with the paper error.  No partial
result is returned in either case. -/
theorem missing_artifact_amended :
    (∀ (a : Artifacts1) (bc pc : Bool) (bd pd : List Row1) (bs ps : List ℚ)
        (kb kp : ℕ), (a.bookModelExists && a.bookMatrixExists) = false →
        model1Predict a bc pc bd pd bs ps kb kp =
          Except.error M1Error.bookArtifactsMissing) ∧
      (∀ (a : Artifacts1) (bc pc : Bool) (bd pd : List Row1) (bs ps : List ℚ)
          (kb kp : ℕ), (a.bookModelExists && a.bookMatrixExists) = true →
          (a.paperModelExists && a.paperMatrixExists) = false →
          model1Predict a bc pc bd pd bs ps kb kp =
            Except.error M1Error.paperArtifactsMissing) := by
  constructor
  · intro a bc pc bd pd bs ps kb kp h
    rw [model1Predict, ensureArtifacts1, if_pos (by rw [h]; decide)]
  · intro a bc pc bd pd bs ps kb kp hb hp
    rw [model1Predict, ensureArtifacts1, if_neg (by rw [hb]; decide),
      if_pos (by rw [hp]; decide)]

/-- Witness for the amended C5: book matrix file absent (model present) fails
the whole call with the book error; book pair present and paper model absent
fails with the paper error. -/
theorem missing_artifact_amended_witness :
    model1Predict ⟨true, false, true, true⟩ true true [] [] [] [] 3 2 =
        Except.error M1Error.bookArtifactsMissing ∧
      model1Predict ⟨true, true, false, true⟩ true true [] [] [] [] 3 2 =
        Except.error M1Error.paperArtifactsMissing :=
  ⟨missing_artifact_amended.1 ⟨true, false, true, true⟩ true true [] [] [] [] 3 2
     (by decide),
   missing_artifact_amended.2 ⟨true, true, false, true⟩ true true [] [] [] [] 3 2
     (by decide) (by decide)⟩

/-- Claim C5 counterexample: with the book artifacts absent but the paper
artifacts present and a scoreable paper row, the call does not return a partial
result (empty books, one ranked paper) — it fails outright with
`ModelTrainingError`, while the identical call with all artifacts present does
return that paper result. -/
theorem missing_artifact_counterexample :
    model1Predict ⟨false, false, true, true⟩ true true []
        [⟨Cell.null, Cell.null, Cell.null, Cell.null, Option.none⟩] [] [1 / 2] 3 2 =
      Except.error M1Error.bookArtifactsMissing ∧
    (model1Predict ⟨true, true, true, true⟩ true true []
        [⟨Cell.null, Cell.null, Cell.null, Cell.null, Option.none⟩] [] [1 / 2] 3 2).map
        (fun r => (r.topBooks.length, r.topPapers.length)) = Except.ok (0, 1) := by
  constructor
  · rfl
  · norm_num [model1Predict, ensureArtifacts1, model1TopK, argsortDesc,
      sortDescBy, List.insertionSort, List.orderedInsert, List.enum,
      List.enumFrom, List.filterMap_cons, List.filterMap_nil, Except.map]

/-! ## Theorems for claim C6 -/

/-- Claim C6 (amended): in model2 the returned structure does expose `query`,
`top_books` and `top_papers`, but the items carry only the identity/metadata
columns — `sim_score` and `final_score` are not among their keys; in model1 the
items do expose identity fields plus `sim_score` and `final_score`, but the
returned dictionary has no `query` key (only `top_books` / `top_papers`). -/
theorem result_shape_amended :
    (∀ (q : List Char) (nB nP : ℕ) (books : List BookF) (papers : List PaperF)
        (bs ps : List ℚ) (r : M2Result),
        model2Recommend q nB nP books papers (some bs) (some ps) = Except.ok r →
          r.query = q ∧
            (∀ item ∈ r.topBooks, item.map Prod.fst =
              ["title", "authors", "description", "publisher", "publishedDate",
               "avgrating", "previewLink"]) ∧
            (∀ item ∈ r.topPapers, item.map Prod.fst =
              ["Title", "Authors", "Year", "Citations", "URL"])) ∧
      (∀ (row : Row1) (sim : ℚ), (model1Item row sim).map Prod.fst =
        ["title", "authors", "year", "sim_score", "final_score", "url"]) := by
  constructor
  · intro q nB nP books papers bs ps r h
    simp only [model2Recommend] at h
    by_cases h1 : books.length = bs.length
    · rw [if_neg (fun hne => hne h1)] at h
      by_cases h2 : papers.length = ps.length
      · rw [if_neg (fun hne => hne h2)] at h
        rcases Except.ok.injEq _ _ ▸ h with rfl
        refine ⟨rfl, ?_, ?_⟩
        · intro item hitem
          rcases List.mem_map.mp hitem with ⟨p, _, hp⟩
          rw [← hp]
          rfl
        · intro item hitem
          rcases List.mem_map.mp hitem with ⟨p, _, hp⟩
          rw [← hp]
          rfl
      · rw [if_pos h2] at h
        exact absurd h (by simp)
    · rw [if_pos h1] at h
      exact absurd h (by simp)
  · intro row sim
    rfl

/-- Witness for the amended C6 at a concrete successful model2 call (one book,
one paper, sims 1/2) and one concrete model1 item. -/
theorem result_shape_amended_witness :
    ((M2Result.mk []
        [model2BookItem (scoreBook ⟨Cell.null, Cell.null, Cell.null, Cell.null,
          Cell.null, Cell.null, Cell.null, 0, 0, 0⟩ (1 / 2))]
        [model2PaperItem (scorePaper ⟨Cell.null, Cell.null, Cell.null, Cell.null,
          Cell.null, 0, 0⟩ (1 / 2))]).query = ([] : List Char) ∧
      (∀ item ∈ (M2Result.mk ([] : List Char)
          [model2BookItem (scoreBook ⟨Cell.null, Cell.null, Cell.null, Cell.null,
            Cell.null, Cell.null, Cell.null, 0, 0, 0⟩ (1 / 2))]
          [model2PaperItem (scorePaper ⟨Cell.null, Cell.null, Cell.null, Cell.null,
            Cell.null, 0, 0⟩ (1 / 2))]).topBooks, item.map Prod.fst =
        ["title", "authors", "description", "publisher", "publishedDate",
         "avgrating", "previewLink"]) ∧
      (∀ item ∈ (M2Result.mk ([] : List Char)
          [model2BookItem (scoreBook ⟨Cell.null, Cell.null, Cell.null, Cell.null,
            Cell.null, Cell.null, Cell.null, 0, 0, 0⟩ (1 / 2))]
          [model2PaperItem (scorePaper ⟨Cell.null, Cell.null, Cell.null, Cell.null,
            Cell.null, 0, 0⟩ (1 / 2))]).topPapers, item.map Prod.fst =
        ["Title", "Authors", "Year", "Citations", "URL"])) ∧
      (model1Item ⟨Cell.null, Cell.null, Cell.null, Cell.null, Option.none⟩
          (1 / 2)).map Prod.fst =
        ["title", "authors", "year", "sim_score", "final_score", "url"] :=
  ⟨result_shape_amended.1 [] 1 1
      [⟨Cell.null, Cell.null, Cell.null, Cell.null, Cell.null, Cell.null,
        Cell.null, 0, 0, 0⟩]
      [⟨Cell.null, Cell.null, Cell.null, Cell.null, Cell.null, 0, 0⟩]
      [1 / 2] [1 / 2] _ rfl,
   result_shape_amended.2 ⟨Cell.null, Cell.null, Cell.null, Cell.null,
     Option.none⟩ (1 / 2)⟩

/-- Claim C6 counterexample: a successful concrete model2 call returns book
items whose key set is exactly the seven metadata columns — `sim_score` and
`final_score` are not exposed on the returned items. -/
theorem result_shape_counterexample :
    (model2Recommend [] 1 1
          [⟨Cell.null, Cell.null, Cell.null, Cell.null, Cell.null, Cell.null,
            Cell.null, 0, 0, 0⟩]
          [⟨Cell.null, Cell.null, Cell.null, Cell.null, Cell.null, 0, 0⟩]
          (some [1 / 2]) (some [1 / 2])).map
        (fun r => r.topBooks.map (fun item => item.map Prod.fst)) =
      Except.ok [["title", "authors", "description", "publisher",
        "publishedDate", "avgrating", "previewLink"]] ∧
    ("sim_score" ∉ ["title", "authors", "description", "publisher",
        "publishedDate", "avgrating", "previewLink"]) ∧
    ("final_score" ∉ ["title", "authors", "description", "publisher",
        "publishedDate", "avgrating", "previewLink"]) := by
  refine ⟨rfl, by decide, by decide⟩

/-! ## Theorems for claim C9 -/

/-- Claim C9 (amended): model1's trainer implements the two-state gate — when a
category's persisted model+matrix pair exists it loads it and skips refitting
(store unchanged, the persisted pair is returned), when it is absent it fits
and persists — and re-running the whole stage on unchanged inputs leaves the
store unchanged (idempotent re-run); model2's `train`, by contrast, has no
existence check (see the counterexample).  -/
theorem train_skip_gate_amended :
    (∀ (V M D : Type) (fitB : D → V × M) (d : D) (s : Store1 V M) (v : V) (m : M),
        s.bookModel = some v → s.bookMatrix = some m →
          model1TrainBooks fitB d s = (s, v, m)) ∧
      (∀ (V M D : Type) (fitB : D → V × M) (d : D) (s : Store1 V M),
          s.bookModel = Option.none →
            (model1TrainBooks fitB d s).1.bookModel = some (fitB d).1 ∧
              (model1TrainBooks fitB d s).1.bookMatrix = some (fitB d).2) ∧
      (∀ (V M D : Type) (fitB fitP : D → V × M) (db dp : D) (s : Store1 V M),
          model1TrainStage fitB fitP db dp (model1TrainStage fitB fitP db dp s) =
            model1TrainStage fitB fitP db dp s) := by
  refine ⟨?_, ?_, ?_⟩
  · intro V M D fitB d s v m hv hm
    rw [model1TrainBooks, hv, hm]
  · intro V M D fitB d s hv
    rw [model1TrainBooks, hv]
    match hm : s.bookMatrix with
    | Option.none => exact ⟨rfl, rfl⟩
    | some m => exact ⟨rfl, rfl⟩
  · intro V M D fitB fitP db dp s
    rcases hb : (model1TrainBooks fitB db s) with ⟨s1, vb, mb⟩
    rcases hp : (model1TrainPapers fitP dp s1) with ⟨s2, vp, mp⟩
    rw [model1TrainStage, model1TrainStage, hb]
    simp only
    rw [hp]
    simp only
    have h1 : s2.bookModel.isSome = true ∧ s2.bookMatrix.isSome = true := by
      have hbs1 : s1.bookModel.isSome = true ∧ s1.bookMatrix.isSome = true := by
        rw [model1TrainBooks] at hb
        match hv : s.bookModel, hm : s.bookMatrix with
        | some v, some m =>
          rw [hv, hm] at hb
          cases hb
          exact ⟨by rw [hv]; rfl, by rw [hm]; rfl⟩
        | some v, Option.none =>
          rw [hv, hm] at hb
          cases hb
          exact ⟨rfl, rfl⟩
        | Option.none, some m =>
          rw [hv, hm] at hb
          cases hb
          exact ⟨rfl, rfl⟩
        | Option.none, Option.none =>
          rw [hv, hm] at hb
          cases hb
          exact ⟨rfl, rfl⟩
      rw [model1TrainPapers] at hp
      match hv : s1.paperModel, hm : s1.paperMatrix with
      | some v, some m =>
        rw [hv, hm] at hp
        cases hp
        exact hbs1
      | some v, Option.none =>
        rw [hv, hm] at hp
        cases hp
        exact hbs1
      | Option.none, some m =>
        rw [hv, hm] at hp
        cases hp
        exact hbs1
      | Option.none, Option.none =>
        rw [hv, hm] at hp
        cases hp
        exact hbs1
    have h2 : s2.paperModel.isSome = true ∧ s2.paperMatrix.isSome = true := by
      rw [model1TrainPapers] at hp
      match hv : s1.paperModel, hm : s1.paperMatrix with
      | some v, some m =>
        rw [hv, hm] at hp
        cases hp
        exact ⟨by rw [hv]; rfl, by rw [hm]; rfl⟩
      | some v, Option.none =>
        rw [hv, hm] at hp
        cases hp
        exact ⟨rfl, rfl⟩
      | Option.none, some m =>
        rw [hv, hm] at hp
        cases hp
        exact ⟨rfl, rfl⟩
      | Option.none, Option.none =>
        rw [hv, hm] at hp
        cases hp
        exact ⟨rfl, rfl⟩
    rcases Option.isSome_iff_exists.mp h1.1 with ⟨vb2, hvb2⟩
    rcases Option.isSome_iff_exists.mp h1.2 with ⟨mb2, hmb2⟩
    rcases Option.isSome_iff_exists.mp h2.1 with ⟨vp2, hvp2⟩
    rcases Option.isSome_iff_exists.mp h2.2 with ⟨mp2, hmp2⟩
    rw [model1TrainBooks, hvb2, hmb2]
    simp only
    rw [model1TrainPapers, hvp2, hmp2]

/-- Witness for the amended C9 over `Store1 ℕ ℕ`: with the pair `(1, 2)`
persisted the book step loads it and leaves the store unchanged; with the model
file absent it fits (here `fit d = (d, d)` on data `7`) and persists. -/
theorem train_skip_gate_amended_witness :
    model1TrainBooks (fun d : ℕ => (d, d)) 7
        (⟨some 1, some 2, some 3, some 4⟩ : Store1 ℕ ℕ) =
      (⟨some 1, some 2, some 3, some 4⟩, 1, 2) ∧
    ((model1TrainBooks (fun d : ℕ => (d, d)) 7
        (⟨Option.none, some 2, some 3, some 4⟩ : Store1 ℕ ℕ)).1.bookModel =
          some 7 ∧
      (model1TrainBooks (fun d : ℕ => (d, d)) 7
        (⟨Option.none, some 2, some 3, some 4⟩ : Store1 ℕ ℕ)).1.bookMatrix =
          some 7) :=
  ⟨train_skip_gate_amended.1 ℕ ℕ ℕ (fun d => (d, d)) 7
     ⟨some 1, some 2, some 3, some 4⟩ 1 2 rfl rfl,
   train_skip_gate_amended.2.1 ℕ ℕ ℕ (fun d => (d, d)) 7
     ⟨Option.none, some 2, some 3, some 4⟩ rfl⟩

/-- Claim C9 counterexample: model2's `train` refits and overwrites even when a
persisted matrix pair `(1, 2)` already exists — the stage does not skip, and
the store changes. -/
theorem train_skip_gate_counterexample :
    model2TrainStage 5 6 (⟨some 1, some 2⟩ : Store2 ℕ) = ⟨some 5, some 6⟩ ∧
      model2TrainStage 5 6 (⟨some 1, some 2⟩ : Store2 ℕ) ≠ ⟨some 1, some 2⟩ :=
  ⟨rfl, by decide⟩
